import Mathlib

/-!
The HTTP client `gdrte/httpclient`.

A shallow embedding of `errors/errors.go` (the typed error taxonomy) and of
`client.go` (retry loop, status validation, error mapping and the three request
entry points), followed by the properties proved about them.

Go strings and byte slices are lists of characters.  The Go `error` interface is
the type `GoError`, whose constructor `GoError.nil` is the nil interface value.
Library calls the code relies on (`fmt.Sprintf`, `regexp`, `strconv.ParseFloat`,
`http.NewRequest`, `json`) are either given a small executable model or taken as
fields of `Env`.
-/

namespace HttpClient

/-- Go `string` and `[]byte`: a sequence of characters. -/
abbrev Str := List Char

/-! ## `fmt` -/

/-- Operand of a `fmt.Sprintf` call.  An `error` operand printed with `%v` is passed
as the string its `Error()` method returns. -/
inductive Arg where
  | str (s : Str)
  | int (i : Int)
  deriving DecidableEq

/-- Decimal rendering of a Go `int` (verb `%d`). -/
def itoa (i : Int) : Str :=
  match i with
  | Int.ofNat n => Nat.toDigits 10 n
  | Int.negSucc n => '-' :: Nat.toDigits 10 (n + 1)

/-- Go-syntax `type=value` rendering used by `fmt` in its diagnostics. -/
def Arg.typed : Arg → Str
  | .str s => "string=".toList ++ s
  | .int i => "int=".toList ++ itoa i

/-- Rendering of one operand under a verb: `%s` and `%v` print a string as it is,
`%d` and `%v` print an int in decimal; any other pairing is rendered in the
bad-verb notation `%!verb(type=value)` of `fmt`. -/
def renderArg (verb : Char) (a : Arg) : Str :=
  match a with
  | .str s => if verb = 's' ∨ verb = 'v' then s else '%' :: '!' :: verb :: '(' :: (a.typed ++ [')'])
  | .int i => if verb = 'd' ∨ verb = 'v' then itoa i else '%' :: '!' :: verb :: '(' :: (a.typed ++ [')'])

/-- Surplus operands: `%!(EXTRA type=value, ...)`; nothing when none is left. -/
def renderExtra : List Arg → Str
  | [] => []
  | as => "%!(EXTRA ".toList ++ (", ".toList).intercalate (as.map Arg.typed) ++ [')']

/-- Model of `fmt.Sprintf` for formats whose verbs carry no flag, width, precision or
index: literal text is copied, `%%` prints a percent sign, a verb consumes the next
operand, a verb without operand prints `%!verb(MISSING)`, a trailing `%` prints
`%!(NOVERB)`.  Flags, widths, precisions and indexes are not parsed (the character after
`%` is read as the verb), so the text differs from Go's for a format that has them; the
formats written in the source have none. -/
def Sprintf : Str → List Arg → Str
  | [], args => renderExtra args
  | c :: rest, args =>
    if c = '%' then
      match rest with
      | [] => "%!(NOVERB)".toList ++ renderExtra args
      | verb :: rest' =>
        if verb = '%' then '%' :: Sprintf rest' args
        else
          match args with
          | [] => '%' :: '!' :: verb :: ("(MISSING)".toList ++ Sprintf rest' [])
          | a :: as => renderArg verb a ++ Sprintf rest' as
    else c :: Sprintf rest args

/-! ## `errors/errors.go` -/

/-- The error codes of `errors.go` (`type Code string` and its five constants). -/
inductive Code where
  | UnspecifiedError
  | NotFoundError
  | DuplicateValueError
  | TimeoutError
  | UnauthorisedError
  deriving DecidableEq, Repr

/-- Go `http.Header`: header names with their values. -/
abbrev Header := List (Str × List Str)

/-- The struct `HttpError` of `client.go`. -/
structure HttpError where
  StatusCode : Int
  Data : Header
  url : Str
  responseMessage : Str
  deriving DecidableEq

/-- A value of the Go interface type `error`: `nil`, an error of a foreign type (known
by the text its `Error()` returns), a `*HttpError` of `client.go`, or a `*httpError` of
`errors.go` with its fields `errcode`, `error` (as the message it renders to) and
`cause`. -/
inductive GoError where
  | nil
  | other (text : Str)
  | status (e : HttpError)
  | typed (errcode : Code) (msg : Str) (cause : GoError)
  deriving DecidableEq

/-- Method `(*HttpError).Error` of `client.go`. -/
def HttpError.Error (e : HttpError) : Str :=
  Sprintf "request (%s) returned unexpected status: %d; error info: %v".toList
    [.str e.url, .int e.StatusCode, .str e.responseMessage]

/-- Function `makeErrorf`: the message is `fmt.Errorf(format, args...)`. -/
def makeErrorf (code : Code) (cause : GoError) (format : Str) (args : List Arg) : GoError :=
  .typed code (Sprintf format args) cause

/-- Method `(*httpError).Cause`; defined on `*httpError` values only. -/
def GoError.Cause : GoError → Option GoError
  | .typed _ _ cause => some cause
  | _ => none

/-- Method `(*httpError).code`, on the receiver's fields `errcode` and `cause`: the
type assertion `err.cause.(*httpError)` succeeds exactly on `GoError.typed`. -/
def httpError.code (errcode : Code) (cause : GoError) : Code :=
  if errcode ≠ .UnspecifiedError then errcode
  else
    match cause with
    | .typed c _ ca => httpError.code c ca
    | _ => .UnspecifiedError

/-- The code of an error value when it is a `*httpError`. -/
def GoError.code : GoError → Option Code
  | .typed errcode _ cause => some (httpError.code errcode cause)
  | _ => none

/-- The `Error()` method of an error value: `(*httpError).Error` on `typed`,
`(*HttpError).Error` on `status`, the carried text otherwise; on the nil interface
it is the `<nil>` that `%v` prints. -/
def GoError.Error : GoError → Str
  | .nil => "<nil>".toList
  | .other text => text
  | .status e => e.Error
  | .typed _ msg cause =>
    if cause ≠ .nil then Sprintf "%v\ncaused by: %v".toList [.str msg, .str cause.Error]
    else msg

/-- Method `(*httpError).causedBy`. -/
def httpError.causedBy (errcode : Code) (cause : GoError) (code : Code) : Bool :=
  if httpError.code errcode cause = code then true
  else
    match cause with
    | .typed c _ ca => httpError.code c ca = code
    | _ => false

/-- Function `Newf`. -/
def Newf (cause : GoError) (format : Str) (args : List Arg) : GoError :=
  makeErrorf .UnspecifiedError cause format args

/-- Function `NewNotFoundf`. -/
def NewNotFoundf (cause : GoError) (context : Str) (format : Str) (args : List Arg) : GoError :=
  makeErrorf .NotFoundError cause
    (if format = [] then Sprintf "Not found: %s".toList [.str context] else format) args

/-- Function `NewDuplicateValuef`. -/
def NewDuplicateValuef (cause : GoError) (context : Str) (format : Str) (args : List Arg) :
    GoError :=
  makeErrorf .DuplicateValueError cause
    (if format = [] then Sprintf "Duplicate: %s".toList [.str context] else format) args

/-- Function `NewTimeoutf`. -/
def NewTimeoutf (cause : GoError) (context : Str) (format : Str) (args : List Arg) : GoError :=
  makeErrorf .TimeoutError cause
    (if format = [] then Sprintf "Timeout: %s".toList [.str context] else format) args

/-- Function `NewUnauthorisedf`. -/
def NewUnauthorisedf (cause : GoError) (context : Str) (format : Str) (args : List Arg) :
    GoError :=
  makeErrorf .UnauthorisedError cause
    (if format = [] then Sprintf "Unauthorised: %s".toList [.str context] else format) args

/-! ## `regexp` -/

/-- One element of a compiled pattern: a literal character, `.` (any character but
a line feed), or one of the two starred. -/
inductive Item where
  | char (c : Char)
  | dot
  | charStar (c : Char)
  | dotStar
  deriving DecidableEq

/-- Model of `regexp.Compile` for patterns built from literal characters, `.` and
`*` after a single character. -/
def Compile : Str → List Item
  | [] => []
  | [c] => [if c = '.' then .dot else .char c]
  | c :: d :: rest =>
    if d = '*' then (if c = '.' then .dotStar else .charStar c) :: Compile rest
    else (if c = '.' then .dot else .char c) :: Compile (d :: rest)

/-- Greedy-or-not makes no difference for a yes/no answer: `starLoop ok k t` holds when
`k` accepts `t` after dropping some leading characters that all satisfy `ok`. -/
def starLoop (ok : Char → Bool) (k : Str → Bool) : Str → Bool
  | [] => k []
  | x :: xs => k (x :: xs) || (ok x && starLoop ok k xs)

/-- A match of the whole pattern that starts at the head of the text. -/
def matchHere : List Item → Str → Bool
  | [], _ => true
  | .char c :: ps, t =>
    match t with
    | [] => false
    | x :: xs => x = c && matchHere ps xs
  | .dot :: ps, t =>
    match t with
    | [] => false
    | x :: xs => x ≠ '\n' && matchHere ps xs
  | .charStar c :: ps, t => starLoop (fun x => x = c) (matchHere ps) t
  | .dotStar :: ps, t => starLoop (fun x => x ≠ '\n') (matchHere ps) t

/-- Model of `(*Regexp).Match`: the pattern matches somewhere in the text. -/
def Regexp.Match (re : List Item) : Str → Bool
  | [] => matchHere re []
  | x :: xs => matchHere re (x :: xs) || Regexp.Match re xs

/-! ## `client.go` -/

def contentTypeJSON : Str := "application/json".toList

def contentTypeOctetStream : Str := "application/octet-stream".toList

/-- Constant `MaxSendAttempts`. -/
def MaxSendAttempts : Int := 3

/-- `http.StatusOK` and the other status constants used by `client.go`. -/
def StatusOK : Int := 200

def StatusBadRequest : Int := 400

def StatusUnauthorized : Int := 401

def StatusForbidden : Int := 403

def StatusNotFound : Int := 404

def StatusRequestEntityTooLarge : Int := 413

/-- The struct `ErrorResponse`. -/
structure ErrorResponse where
  Message : Str
  Code : Int
  Title : Str
  deriving DecidableEq

/-- Method `(*ErrorResponse).Error`. -/
def ErrorResponse.Error (e : ErrorResponse) : Str :=
  Sprintf "Failed: %d %s: %s".toList [.int e.Code, .str e.Title, .str e.Message]

/-- A response body stream (`io.ReadCloser`): `id` tells the streams of different
exchanges apart, `data` is what reading it to the end yields and `readErr` the text of
the error the read ends with, if any. -/
structure Body where
  id : Nat
  data : Str
  readErr : Option Str
  deriving DecidableEq

/-- The fields of `http.Response` the client looks at. -/
structure Response where
  StatusCode : Int
  Header : Header
  Body : Body
  deriving DecidableEq

/-- What `http.NewRequest` and the header loop build for one attempt. -/
structure Request where
  Method : Str
  URL : Str
  Header : Header
  deriving DecidableEq

/-- What one call of `(*http.Client).Do` yields: an error (always a `*url.Error`, known by
its text) or a response. -/
inductive DoResult where
  | fault (text : Str)
  | reply (StatusCode : Int) (Header : Header) (data : Str) (readErr : Option Str)
  deriving DecidableEq

/-- A `float64` as `strconv.ParseFloat` returns it: the finite value `mant * 2 ^ exp`,
an infinity, or not-a-number. -/
inductive Float64 where
  | finite (mant : Int) (exp : Int)
  | inf (negative : Bool)
  | nan
  deriving DecidableEq

/-- The comparison `x == 0` on `float64`. -/
def Float64.eqZero : Float64 → Bool
  | .finite mant _ => mant = 0
  | _ => false

/-- The integer part of a finite `float64`: the value with its fraction dropped. -/
def Float64.trunc : Float64 → Option Int
  | .finite mant exp =>
    some (if 0 ≤ exp then mant * 2 ^ exp.toNat else Int.tdiv mant (2 ^ (-exp).toNat))
  | _ => none

/-- An `int64` kept in range the way Go arithmetic does: modulo `2 ^ 64`. -/
def wrap64 (z : Int) : Int :=
  (z + 9223372036854775808) % 18446744073709551616 - 9223372036854775808

/-- Constant `time.Second`, in nanoseconds. -/
def Second : Int := 1000000000

/-- The library functions the client calls and this development does not look into. -/
structure Env where
  /-- `textproto.CanonicalMIMEHeaderKey` -/
  CanonicalMIMEHeaderKey : Str → Str
  /-- the error text of `http.NewRequest(method, URL, _)`, `none` when it succeeds -/
  NewRequest : Str → Str → Option Str
  /-- `strconv.ParseFloat(s, 32)`: the value, and the error text if any -/
  ParseFloat : Str → Float64 × Option Str
  /-- `json.Unmarshal` into an `ErrorWrapper`: its `Error` field on success -/
  UnmarshalErrorWrapper : Str → Option ErrorResponse
  /-- `json.Unmarshal` into the response sink: the decoded value, or the error text -/
  Unmarshal : Str → Except Str Str
  /-- the `int64` a conversion from `float64` yields for a value that has no `int64`
  (out of range, an infinity, not-a-number): Go leaves it to the implementation -/
  ConvertOutOfRange : Float64 → Int

/-- The struct `Client`: the embedded `http.Client` is represented by the outcome of its
`k`-th call of `Do`. -/
structure Client where
  Do : Nat → Request → DoResult
  maxSendAttempts : Int
  agentName : Str

/-- What the client does to the outside world, in order. -/
inductive Event where
  | exec (k : Nat) (req : Request)
  | closeBody (id : Nat)
  | readBody (id : Nat)
  /-- `time.Sleep(d)`, `d` in nanoseconds; the call returns at once when `d ≤ 0` -/
  | sleep (d : Int)
  deriving DecidableEq

/-- The outside world: how many times `Do` was called, and the events so far. -/
structure World where
  calls : Nat
  trace : List Event
  deriving DecidableEq

def World.init : World := ⟨0, []⟩

def World.record (w : World) (e : Event) : World := { w with trace := w.trace ++ [e] }

/-- The conversion `time.Duration(x)` of a `float64`: the fraction is dropped; a value
that does not fit `int64` converts to what the implementation chooses. -/
def toDuration (env : Env) (x : Float64) : Int :=
  match x.trunc with
  | some t =>
    if -9223372036854775808 ≤ t ∧ t < 9223372036854775808 then t
    else wrap64 (env.ConvertOutOfRange x)
  | none => wrap64 (env.ConvertOutOfRange x)

/-- The argument of the `time.Sleep` call of the retry loop,
`time.Duration(retryAfter) * time.Second`. -/
def sleepDuration (env : Env) (retryAfter : Float64) : Int :=
  wrap64 (toDuration env retryAfter * Second)

/-- Method `http.Header.Get`. -/
def Header.Get (env : Env) (h : Header) (key : Str) : Str :=
  match h.lookup (env.CanonicalMIMEHeaderKey key) with
  | some (v :: _) => v
  | _ => []

/-- Method `http.Header.Add`. -/
def Header.Add (env : Env) (h : Header) (key value : Str) : Header :=
  let k := env.CanonicalMIMEHeaderKey key
  if h.any (fun e => e.1 = k) then h.map (fun e => if e.1 = k then (e.1, e.2 ++ [value]) else e)
  else h ++ [(k, [value])]

/-- Function `New`. -/
def New (httpDo : Nat → Request → DoResult) (agentName : Str) : Client :=
  ⟨httpDo, MaxSendAttempts, agentName⟩

/-- Method `(*Client).createHeaders`. -/
def createHeaders (env : Env) (c : Client) (extraHeaders : Header) (contentType : Str) : Header :=
  let headers : Header :=
    extraHeaders.foldl
      (fun hs hv => hv.2.foldl (fun hs value => Header.Add env hs hv.1 value) hs) []
  let headers := Header.Add env headers "Content-Type".toList contentType
  let headers := Header.Add env headers "Accept".toList contentType
  Header.Add env headers "User-Agent".toList c.agentName

/-- The pattern of `handleError`. -/
def dupExp : List Item := Compile ".*already exists.*".toList

/-- Function `handleError`.  The body is read to the end (the read error is dropped). -/
def handleError (env : Env) (URL : Str) (resp : Response) (w : World) : GoError × World :=
  let errBytes := resp.Body.data
  let w := w.record (.readBody resp.Body.id)
  let errInfo :=
    if Header.Get env resp.Header "Content-Type".toList = contentTypeJSON then
      match env.UnmarshalErrorWrapper errBytes with
      | some wrappedErr => wrappedErr.Error
      | none => errBytes
    else errBytes
  let httpError : HttpError := ⟨resp.StatusCode, resp.Header, URL, errInfo⟩
  if resp.StatusCode = StatusNotFound then
    (NewNotFoundf (.status httpError) [] "Resource at %s not found".toList [.str URL], w)
  else if resp.StatusCode = StatusForbidden ∨ resp.StatusCode = StatusUnauthorized then
    (NewUnauthorisedf (.status httpError) [] "Unauthorised URL %s".toList [.str URL], w)
  else if resp.StatusCode = StatusBadRequest then
    if Regexp.Match dupExp errBytes = true then
      (NewDuplicateValuef (.status httpError) [] errBytes [], w)
    else (.status httpError, w)
  else (.status httpError, w)

/-- The request one attempt sends: what `http.NewRequest(method, URL, _)` returns, with
every value of `headers` added to its header. -/
def requestOf (env : Env) (method URL : Str) (headers : Header) : Request :=
  ⟨method, URL,
    headers.foldl (fun hs hv => hv.2.foldl (fun hs value => Header.Add env hs hv.1 value) hs) []⟩

/-- The `for` loop of `sendRateLimitedRequest` with `left` iterations to go
(`left = maxSendAttempts - i`), and, once none is left, the statement after the loop.
The result is `(resp, nil)` as `Except.ok resp` and `(nil, err)` as `Except.error err`.
The request payload is not represented: no decision of the client depends on it. -/
def sendLoop (env : Env) (c : Client) (method URL : Str) (headers : Header) :
    Nat → World → Except GoError Response × World
  | 0, w =>
    (.error (Newf .nil "Maximum number of attempts (%d) reached sending request to %s".toList
      [.int c.maxSendAttempts, .str URL]), w)
  | left + 1, w =>
    match env.NewRequest method URL with
    | some e => (.error (Newf (.other e) "failed creating the request %s".toList [.str URL]), w)
    | none =>
      let req := requestOf env method URL headers
      let w1 : World := ⟨w.calls + 1, w.trace ++ [.exec w.calls req]⟩
      match c.Do w.calls req with
      | .fault e =>
        (.error (Newf (.other e) "failed executing the request %s".toList [.str URL]), w1)
      | .reply statusCode header data readErr =>
        let resp : Response := ⟨statusCode, header, ⟨w.calls, data, readErr⟩⟩
        if resp.StatusCode ≠ StatusRequestEntityTooLarge ∨
            Header.Get env resp.Header "Retry-After".toList = [] then
          (.ok resp, w1)
        else
          let w2 := w1.record (.closeBody resp.Body.id)
          match env.ParseFloat (Header.Get env resp.Header "Retry-After".toList) with
          | (_, some e) =>
            (.error (Newf (.other e) "Invalid Retry-After header %s".toList [.str URL]), w2)
          | (retryAfter, none) =>
            if retryAfter.eqZero = true then
              (.error (Newf .nil "Resource limit exeeded at URL %s".toList [.str URL]), w2)
            else
              sendLoop env c method URL headers left
                (w2.record (.sleep (sleepDuration env retryAfter)))

/-- Method `(*Client).sendRateLimitedRequest`. -/
def sendRateLimitedRequest (env : Env) (c : Client) (method URL : Str) (headers : Header)
    (w : World) : Except GoError Response × World :=
  sendLoop env c method URL headers c.maxSendAttempts.toNat w

/-- The expected statuses `sendRequest` checks against. -/
def effectiveStatus (expectedStatus : List Int) : List Int :=
  if expectedStatus.length = 0 then [StatusOK] else expectedStatus

/-- Method `(*Client).sendRequest`, with its named results `(rc, statusCode, err)`: a bare
`return` hands back whatever they hold, `nil` and `0` when never assigned. -/
def sendRequest (env : Env) (c : Client) (method URL : Str) (headers : Header)
    (expectedStatus : List Int) (w : World) : (Option Body × Int × GoError) × World :=
  match sendRateLimitedRequest env c method URL headers w with
  | (.error err, w1) => ((none, 0, err), w1)
  | (.ok rawResp, w1) =>
    let expectedStatus := effectiveStatus expectedStatus
    let foundStatus := expectedStatus.any (fun status => rawResp.StatusCode = status)
    if !foundStatus && expectedStatus.length > 0 then
      let r := handleError env URL rawResp w1
      ((none, 0, r.1), r.2.record (.closeBody rawResp.Body.id))
    else ((some rawResp.Body, rawResp.StatusCode, .nil), w1)

/-- The field `ReqValue` of the envelope: nil, a string, or another value, known by what
`json.Marshal` makes of it. -/
inductive ReqValue where
  | nil
  | string (s : Str)
  | value (marshalled : Except Str Str)

/-- The struct `RequestData`.  `Params` is nil or the text `Params.Encode()` yields;
`RespValue` is nil or the sink's content; the request reader is not represented. -/
structure RequestData where
  ReqHeaders : Header
  Params : Option Str
  ExpectedStatus : List Int
  ReqValue : ReqValue
  RespValue : Option Str
  StatusCode : Int
  ReqLength : Int
  RespReader : Option Body
  UnMarshalJson : Bool
  Binary : Bool

/-- How a call ends: it returns, or the goroutine panics on a nil dereference. -/
inductive Outcome (α : Type) where
  | returned (a : α)
  | panicked
  deriving DecidableEq

/-- Function `unmarshallResponse`; the deferred `Close` runs last. -/
def unmarshallResponse (env : Env) (respBody : Body) (reqData : RequestData) (w : World) :
    GoError × RequestData × World :=
  let w1 := w.record (.readBody respBody.id)
  let w2 := w1.record (.closeBody respBody.id)
  match respBody.readErr with
  | some e => (Newf (.other e) "failed reading the response body".toList [], reqData, w2)
  | none =>
    let respData := respBody.data
    if respData.length > 0 then
      match reqData.RespValue with
      | some _ =>
        match env.Unmarshal respData with
        | .ok v => (.nil, { reqData with RespValue := some v }, w2)
        | .error e =>
          (Newf (.other e) "failed unmarshaling the response body: %s".toList [.str respData],
            reqData, w2)
      | none => (.nil, reqData, w2)
    else (.nil, reqData, w2)

/-- The URL a request is sent to: the query is appended when `Params` is not nil. -/
def withParams (url : Str) (reqData : RequestData) : Str :=
  match reqData.Params with
  | some q => url ++ "?".toList ++ q
  | none => url

/-- The request body of `PlainRequest` and `JsonRequest`, or the marshalling error. -/
def requestBody : ReqValue → Except Str Str
  | .string sbody => .ok sbody
  | .nil => .ok []
  | .value marshalled => marshalled

/-- Method `(*Client).PlainRequest`, results `(resp, err)`.  `ioutil.ReadAll` is called
on the stream `sendRequest` returned whatever `err` is, and panics on a nil stream. -/
def PlainRequest (env : Env) (c : Client) (method url : Str) (reqData : RequestData)
    (w : World) : Outcome (Str × GoError) × RequestData × World :=
  let url := withParams url reqData
  match requestBody reqData.ReqValue with
  | .error e =>
    (.returned ([], Newf (.other e) "failed marshalling the request body".toList []), reqData, w)
  | .ok _ =>
    let headers := createHeaders env c reqData.ReqHeaders "text/plain".toList
    match sendRequest env c method url headers reqData.ExpectedStatus w with
    | ((respBody, statusCode, _), w1) =>
      let reqData := { reqData with StatusCode := statusCode }
      match respBody with
      | none => (.panicked, reqData, w1)
      | some b =>
        (.returned (b.data, match b.readErr with | some e => .other e | none => .nil),
          reqData, w1.record (.readBody b.id))

/-- Method `(*Client).JsonRequest`. -/
def JsonRequest (env : Env) (c : Client) (method url : Str) (reqData : RequestData)
    (w : World) : Outcome GoError × RequestData × World :=
  let url := withParams url reqData
  match requestBody reqData.ReqValue with
  | .error e =>
    (.returned (Newf (.other e) "failed marshalling the request body".toList []), reqData, w)
  | .ok _ =>
    let headers := createHeaders env c reqData.ReqHeaders contentTypeJSON
    match sendRequest env c method url headers reqData.ExpectedStatus w with
    | ((respBody, statusCode, err), w1) =>
      let reqData := { reqData with StatusCode := statusCode }
      if err ≠ .nil then (.returned err, reqData, w1)
      else
        match respBody with
        | none => (.panicked, reqData, w1)
        | some b =>
          let r := unmarshallResponse env b reqData w1
          (.returned r.1, r.2.1, r.2.2)

/-- Method `(*Client).BinaryRequest`. -/
def BinaryRequest (env : Env) (c : Client) (method url _token : Str) (reqData : RequestData)
    (w : World) : Outcome GoError × RequestData × World :=
  let url := withParams url reqData
  let headers := createHeaders env c reqData.ReqHeaders contentTypeOctetStream
  match sendRequest env c method url headers reqData.ExpectedStatus w with
  | ((respBody, statusCode, err), w1) =>
    let reqData := { reqData with StatusCode := statusCode }
    if err ≠ .nil then (.returned err, reqData, w1)
    else
      let reqData :=
        if reqData.RespReader ≠ none then { reqData with RespReader := respBody } else reqData
      if reqData.UnMarshalJson = true then
        match respBody with
        | none => (.panicked, reqData, w1)
        | some b =>
          let r := unmarshallResponse env b reqData w1
          (.returned r.1, r.2.1, r.2.2)
      else (.returned .nil, reqData, w1)

/-! ## Specification-side definitions -/

/-- The errors met when walking from an error along its causes: the error itself, then
what is met from its cause on.  An error that is no `*httpError` has no cause. -/
def causeChain : GoError → List GoError
  | .nil => []
  | .other text => [.other text]
  | .status e => [.status e]
  | .typed errcode msg cause => .typed errcode msg cause :: causeChain cause

/-- The first code other than `Unspecified` carried by an error of the list, and
`Unspecified` when there is none. -/
def firstConcreteCode : List GoError → Code
  | [] => .UnspecifiedError
  | .typed errcode _ _ :: rest =>
    if errcode = .UnspecifiedError then firstConcreteCode rest else errcode
  | _ :: rest => firstConcreteCode rest

/-- An error wrapped in `Newf` layers, the head of the list outermost. -/
def wrapUnspecified : List (Str × List Arg) → GoError → GoError
  | [], e => e
  | (format, args) :: layers, e => Newf (wrapUnspecified layers e) format args

/-- The own message of each error of the chain, outermost first. -/
def chainMessages : GoError → List Str
  | .nil => []
  | .other text => [text]
  | .status e => [e.Error]
  | .typed _ msg cause => msg :: chainMessages cause

/-- The separator `Error()` puts before the rendering of a cause. -/
def causedBy : Str := "\ncaused by: ".toList

/-- Whether the trace records a read or a close of the body stream `id`. -/
def World.touched (w : World) (id : Nat) : Bool :=
  w.trace.any (fun e => e = .readBody id || e = .closeBody id)

/-- Nothing is recorded yet about the streams of exchanges still to come. -/
def World.fresh (w : World) : Prop := ∀ k, w.calls ≤ k → w.touched k = false

/-- The number of `Do` calls and of `time.Sleep` calls a trace records. -/
def countExec (t : List Event) : Nat :=
  t.countP (fun e => match e with | .exec _ _ => true | _ => false)

def countSleep (t : List Event) : Nat :=
  t.countP (fun e => match e with | .sleep _ => true | _ => false)

/-- The number of waits a trace records: the `time.Sleep` calls of positive duration. -/
def countWait (t : List Event) : Nat :=
  t.countP (fun e => match e with | .sleep d => decide (0 < d) | _ => false)

/-- The wait a `Do` outcome makes the retry loop take before the next attempt: the
outcome is a 413 response whose non-empty `Retry-After` parses, without error, to a value
other than zero.  `none` for every other outcome. -/
def retryAfterOf (env : Env) : DoResult → Option Float64
  | .fault _ => none
  | .reply statusCode header _ _ =>
    if statusCode = 413 ∧ Header.Get env header "Retry-After".toList ≠ [] then
      match env.ParseFloat (Header.Get env header "Retry-After".toList) with
      | (x, none) => if x.eqZero = true then none else some x
      | (_, some _) => none
    else none

/-- The attempts numbered `k`, `k + 1`, ... are answered by 413 responses that ask to wait
`x` for each `x` of the list in turn. -/
def retried (env : Env) (c : Client) (req : Request) : Nat → List Float64 → Prop
  | _, [] => True
  | k, x :: xs => retryAfterOf env (c.Do k req) = some x ∧ retried env c req (k + 1) xs

/-- The events of such a run of attempts: each one is sent, its body closed, and
`time.Sleep` called with the duration computed from the value. -/
def retryEvents (env : Env) (req : Request) : Nat → List Float64 → List Event
  | _, [] => []
  | k, x :: xs =>
    .exec k req :: .closeBody k :: .sleep (sleepDuration env x) :: retryEvents env req (k + 1) xs

/-! ## Sample values -/

/-- An environment in which every request is well formed, header names are already
canonical, `2`, `0.5` and `0` are the texts that parse as numbers, and a `float64` without
`int64` converts to the least `int64` (as on amd64). -/
def sampleEnv : Env where
  CanonicalMIMEHeaderKey := id
  NewRequest := fun _ _ => none
  ParseFloat := fun s =>
    if s = "2".toList then (.finite 1 1, none)
    else if s = "0.5".toList then (.finite 1 (-1), none)
    else if s = "0".toList then (.finite 0 0, none)
    else (.finite 0 0, some "invalid syntax".toList)
  UnmarshalErrorWrapper := fun _ => none
  Unmarshal := fun s => .ok s
  ConvertOutOfRange := fun _ => -9223372036854775808

/-- A client with attempt budget `n` whose successive `Do` calls are answered by the
outcomes of `script`, and fail once the script is used up. -/
def scriptedClient (script : List DoResult) (n : Int) : Client :=
  ⟨fun k _ => script.getD k (.fault "connection refused".toList), n, "agent".toList⟩

def sampleURL : Str := "http://host/items".toList

/-- A 413 response asking to wait two seconds, and one asking to wait zero seconds. -/
def tooLarge2 : DoResult := .reply 413 [("Retry-After".toList, ["2".toList])] [] none

def tooLarge0 : DoResult := .reply 413 [("Retry-After".toList, ["0".toList])] [] none

/-- A 413 response asking to wait half a second. -/
def tooLargeHalf : DoResult := .reply 413 [("Retry-After".toList, ["0.5".toList])] [] none

def notFound : DoResult := .reply 404 [] "no such item".toList none

def okReply : DoResult := .reply 200 [] "done".toList none

/-- An envelope with nothing set but the expected statuses. -/
def sampleData (expected : List Int) : RequestData :=
  ⟨[], none, expected, .nil, none, 0, 0, none, false, false⟩

/-! ## Properties of `errors.go` -/

theorem Sprintf_caused_by (m r : Str) :
    Sprintf "%v\ncaused by: %v".toList [.str m, .str r] = m ++ causedBy ++ r := by
  simp [Sprintf, renderArg, renderExtra, causedBy]

theorem code_eq_firstConcreteCode (cause : GoError) :
    ∀ errcode msg, httpError.code errcode cause
      = firstConcreteCode (causeChain (.typed errcode msg cause)) := by
  induction cause with
  | nil => intro errcode msg; cases errcode <;> simp [httpError.code, causeChain, firstConcreteCode]
  | other text =>
    intro errcode msg; cases errcode <;> simp [httpError.code, causeChain, firstConcreteCode]
  | status e =>
    intro errcode msg; cases errcode <;> simp [httpError.code, causeChain, firstConcreteCode]
  | typed c m ca ih =>
    intro errcode msg
    have h := ih c m
    unfold httpError.code
    by_cases hc : errcode = .UnspecifiedError
    · subst hc
      simp only [ne_eq, not_true_eq_false, if_false] at *
      rw [h]
      simp [causeChain, firstConcreteCode]
    · simp [hc, causeChain, firstConcreteCode]

theorem code_wrapUnspecified (layers : List (Str × List Arg)) (c : Code) (m : Str)
    (ca : GoError) :
    (wrapUnspecified layers (.typed c m ca)).code = some (httpError.code c ca) := by
  induction layers with
  | nil => rfl
  | cons l ls ih =>
    obtain ⟨format, args⟩ := l
    cases hw : wrapUnspecified ls (.typed c m ca) with
    | nil => rw [hw] at ih; simp [GoError.code] at ih
    | other t => rw [hw] at ih; simp [GoError.code] at ih
    | status e => rw [hw] at ih; simp [GoError.code] at ih
    | typed c2 m2 ca2 =>
      rw [hw] at ih
      simp only [GoError.code, Option.some.injEq] at ih
      simp only [wrapUnspecified, hw, Newf, makeErrorf, GoError.code, Option.some.injEq]
      rw [httpError.code]
      simp [ih]

/-- C9: the code of a typed error is the first code other than Unspecified met on its
chain of causes (Unspecified when the chain has none), and a typed error keeps its code
under any number of Unspecified wrappers. -/
theorem code_walks_cause_chain (errcode : Code) (msg : Str) (cause : GoError) :
    (GoError.typed errcode msg cause).code
        = some (firstConcreteCode (causeChain (.typed errcode msg cause)))
      ∧ ∀ layers : List (Str × List Arg),
          (wrapUnspecified layers (.typed errcode msg cause)).code
            = (GoError.typed errcode msg cause).code := by
  refine ⟨?_, fun layers => ?_⟩
  · simp only [GoError.code]
    rw [← code_eq_firstConcreteCode]
  · rw [code_wrapUnspecified]; rfl

theorem Error_eq_intercalate (e : GoError) (h : e ≠ .nil) :
    e.Error = causedBy.intercalate (chainMessages e) := by
  induction e with
  | nil => exact absurd rfl h
  | other text => simp [GoError.Error, chainMessages, List.intercalate]
  | status e => simp [GoError.Error, chainMessages, List.intercalate]
  | typed c m ca ih =>
    by_cases hca : ca = .nil
    · subst hca
      simp [GoError.Error, chainMessages, List.intercalate]
    · have h2 := ih hca
      simp only [GoError.Error, chainMessages, ne_eq, hca, not_false_eq_true, if_true,
        Sprintf_caused_by, h2]
      cases hm : chainMessages ca with
      | nil =>
        cases ca <;> simp [chainMessages] at hm
        exact absurd rfl hca
      | cons x xs => simp [List.intercalate, List.intersperse]

/-- C10: a typed error built by `makeErrorf` with message `m` renders as `m` when it has
no cause and as `m`, the `caused by` separator and the rendering of the cause when it has
one, so that the whole chain renders message by message, outermost first; `Cause()` is
the cause it was built with. -/
theorem error_renders_cause_chain (code : Code) (cause : GoError) (format : Str)
    (args : List Arg) :
    (cause = .nil →
        (makeErrorf code cause format args).Error = Sprintf format args)
      ∧ (cause ≠ .nil →
        (makeErrorf code cause format args).Error
          = Sprintf format args ++ "\ncaused by: ".toList ++ cause.Error)
      ∧ (makeErrorf code cause format args).Error
          = ("\ncaused by: ".toList).intercalate (Sprintf format args :: chainMessages cause)
      ∧ (makeErrorf code cause format args).Cause = some cause := by
  refine ⟨fun h => ?_, fun h => ?_, ?_, rfl⟩
  · subst h; simp [makeErrorf, GoError.Error]
  · simp only [makeErrorf, GoError.Error, ne_eq, h, not_false_eq_true, if_true]
    rw [Sprintf_caused_by]; rfl
  · have := Error_eq_intercalate (makeErrorf code cause format args) (by simp [makeErrorf])
    simpa [makeErrorf, chainMessages, causedBy] using this

/-! ## Properties of the pattern of `handleError` -/

theorem starLoop_of_here (ok : Char → Bool) (k : Str → Bool) (t : Str) (h : k t = true) :
    starLoop ok k t = true := by
  cases t <;> simp [starLoop, h]

theorem starLoop_split (ok : Char → Bool) (k : Str → Bool) (t : Str)
    (h : starLoop ok k t = true) : ∃ p r, t = p ++ r ∧ k r = true := by
  induction t with
  | nil => exact ⟨[], [], rfl, by simpa [starLoop] using h⟩
  | cons x xs ih =>
    simp only [starLoop, Bool.or_eq_true, Bool.and_eq_true] at h
    rcases h with h | ⟨_, h⟩
    · exact ⟨[], x :: xs, rfl, h⟩
    · obtain ⟨p, r, hp, hr⟩ := ih h
      exact ⟨x :: p, r, by simp [hp], hr⟩

theorem matchHere_dotStar (ps : List Item) (t : Str) :
    matchHere (.dotStar :: ps) t = starLoop (fun x => x ≠ '\n') (matchHere ps) t := by
  rw [matchHere]

theorem matchHere_char_cons (c x : Char) (ps : List Item) (xs : Str) :
    matchHere (.char c :: ps) (x :: xs) = (decide (x = c) && matchHere ps xs) := by
  rw [matchHere]

theorem matchHere_char_nil (c : Char) (ps : List Item) :
    matchHere (.char c :: ps) [] = false := by
  rw [matchHere]

theorem matchHere_chars (l : Str) (ps : List Item) (t : Str) :
    matchHere (l.map Item.char ++ ps) t = true ↔ ∃ r, t = l ++ r ∧ matchHere ps r = true := by
  induction l generalizing t with
  | nil => simp
  | cons c cs ih =>
    cases t with
    | nil => simp [matchHere_char_nil]
    | cons x xs =>
      rw [List.map_cons, List.cons_append, matchHere_char_cons, Bool.and_eq_true,
        decide_eq_true_eq, ih]
      constructor
      · rintro ⟨rfl, r, rfl, hr⟩
        exact ⟨r, rfl, hr⟩
      · rintro ⟨r, hx, hr⟩
        simp only [List.cons_append, List.cons.injEq] at hx
        exact ⟨hx.1, r, hx.2, hr⟩

theorem Regexp_Match_iff (re : List Item) (t : Str) :
    Regexp.Match re t = true ↔ ∃ a s, t = a ++ s ∧ matchHere re s = true := by
  induction t with
  | nil =>
    simp only [Regexp.Match]
    constructor
    · intro h; exact ⟨[], [], rfl, h⟩
    · rintro ⟨a, s, hs, h⟩
      have : s = [] := by
        cases s with
        | nil => rfl
        | cons y ys => cases a <;> simp at hs
      subst this; exact h
  | cons x xs ih =>
    simp only [Regexp.Match, Bool.or_eq_true, ih]
    constructor
    · rintro (h | ⟨a, s, rfl, h⟩)
      · exact ⟨[], x :: xs, rfl, h⟩
      · exact ⟨x :: a, s, rfl, h⟩
    · rintro ⟨a, s, hs, h⟩
      cases a with
      | nil => left; simp only [List.nil_append] at hs; rw [hs]; exact h
      | cons y ys =>
        right
        simp only [List.cons_append, List.cons.injEq] at hs
        exact ⟨ys, s, hs.2, h⟩

theorem dupExp_eq :
    dupExp = .dotStar :: ("already exists".toList.map Item.char ++ [.dotStar]) := by decide

/-- The pattern `.*already exists.*` matches a text exactly when the text contains
`already exists`. -/
theorem dupExp_Match_iff (body : Str) :
    Regexp.Match dupExp body = true ↔ "already exists".toList <:+: body := by
  rw [Regexp_Match_iff, dupExp_eq]
  constructor
  · rintro ⟨a, s, rfl, h⟩
    rw [matchHere_dotStar] at h
    obtain ⟨p, r, rfl, hr⟩ := starLoop_split _ _ _ h
    obtain ⟨r2, rfl, -⟩ := (matchHere_chars _ _ _).1 hr
    exact ⟨a ++ p, r2, by simp⟩
  · rintro ⟨a, b, rfl⟩
    refine ⟨a, "already exists".toList ++ b, by simp, ?_⟩
    rw [matchHere_dotStar]
    apply starLoop_of_here
    rw [matchHere_chars]
    refine ⟨b, rfl, ?_⟩
    rw [matchHere_dotStar]
    apply starLoop_of_here
    rw [matchHere]

/-! ## Properties of `handleError` -/

/-- C1: `handleError` classifies by status: 404 gives a NotFound error, 401 and 403 give
an Unauthorised error, 400 gives a DuplicateValue error exactly when the body contains
`already exists`, and everything else gives the `HttpError` itself, holding the status
code, the headers and the URL. -/
theorem handleError_classifies (env : Env) (URL : Str) (resp : Response) (w : World) :
    (resp.StatusCode = 404 → (handleError env URL resp w).1.code = some .NotFoundError)
      ∧ (resp.StatusCode = 401 ∨ resp.StatusCode = 403 →
          (handleError env URL resp w).1.code = some .UnauthorisedError)
      ∧ (resp.StatusCode = 400 →
          ((handleError env URL resp w).1.code = some .DuplicateValueError
            ↔ "already exists".toList <:+: resp.Body.data))
      ∧ ((resp.StatusCode = 400 ∧ ¬ "already exists".toList <:+: resp.Body.data)
            ∨ (resp.StatusCode ≠ 404 ∧ resp.StatusCode ≠ 401 ∧ resp.StatusCode ≠ 403
                ∧ resp.StatusCode ≠ 400) →
          ∃ info, (handleError env URL resp w).1
            = .status ⟨resp.StatusCode, resp.Header, URL, info⟩) := by
  refine ⟨fun h => ?_, fun h => ?_, fun h => ?_, fun h => ?_⟩
  · simp [handleError, h, StatusNotFound, NewNotFoundf, makeErrorf, GoError.code,
      httpError.code]
  · rcases h with h | h <;>
      simp [handleError, h, StatusNotFound, StatusForbidden, StatusUnauthorized,
        NewUnauthorisedf, makeErrorf, GoError.code, httpError.code]
  · rw [← dupExp_Match_iff]
    by_cases hm : Regexp.Match dupExp resp.Body.data = true
    · simp [handleError, h, hm, StatusNotFound, StatusForbidden, StatusUnauthorized,
        StatusBadRequest, NewDuplicateValuef, makeErrorf, GoError.code, httpError.code]
    · simp [handleError, h, hm, StatusNotFound, StatusForbidden, StatusUnauthorized,
        StatusBadRequest, GoError.code]
  · rcases h with ⟨h, hm⟩ | ⟨h1, h2, h3, h4⟩
    · rw [← dupExp_Match_iff] at hm
      simp [handleError, h, hm, StatusNotFound, StatusForbidden, StatusUnauthorized,
        StatusBadRequest]
    · simp [handleError, h1, h2, h3, h4, StatusNotFound, StatusForbidden,
        StatusUnauthorized, StatusBadRequest]

/-! ## Properties of the retry loop and of `sendRequest` -/

theorem fresh_init : World.init.fresh := by
  intro k _; rfl

theorem fresh_retry (w : World) (req : Request) (x : Int) (hw : w.fresh) :
    World.fresh ((World.record ⟨w.calls + 1, w.trace ++ [Event.exec w.calls req]⟩
      (.closeBody w.calls)).record (.sleep x)) := by
  intro k hk
  simp only [World.record] at hk
  have h1 := hw k (by omega)
  have h2 : w.calls ≠ k := by omega
  simp only [World.touched] at h1
  simp [World.touched, World.record, h1, h2]

theorem sendLoop_ok_untouched (env : Env) (c : Client) (method URL : Str) (headers : Header) :
    ∀ (left : Nat) (w : World) (resp : Response) (w1 : World),
      sendLoop env c method URL headers left w = (.ok resp, w1) → w.fresh →
      w.calls ≤ resp.Body.id ∧ w1.calls = resp.Body.id + 1 ∧
        ∀ k, resp.Body.id ≤ k → w1.touched k = false := by
  intro left
  induction left with
  | zero => intro w resp w1 h; simp [sendLoop] at h
  | succ n ih =>
    intro w resp w1 h hw
    simp only [sendLoop] at h
    split at h
    · simp at h
    · split at h
      · simp at h
      · split at h
        · simp only [Prod.mk.injEq, Except.ok.injEq] at h
          obtain ⟨rfl, rfl⟩ := h
          refine ⟨le_refl _, rfl, fun k hk => ?_⟩
          have := hw k hk
          simpa [World.touched] using this
        · split at h
          · simp at h
          · split at h
            · simp at h
            · obtain ⟨a, b, d⟩ := ih _ resp w1 h (fresh_retry w _ _ hw)
              simp only [World.record] at a
              exact ⟨by omega, b, d⟩

/-- C2: when the retry loop hands a response to `sendRequest`, the call succeeds exactly
when the status is among the expected ones (the given list, or 200 alone when the list is
empty), and then it returns the status of the response and its body stream, which no
event of the trace has read or closed. -/
theorem sendRequest_succeeds_iff_expected (env : Env) (c : Client) (method URL : Str)
    (headers : Header) (expectedStatus : List Int) (w w1 : World) (resp : Response)
    (hw : w.fresh)
    (h : sendRateLimitedRequest env c method URL headers w = (.ok resp, w1)) :
    ((sendRequest env c method URL headers expectedStatus w).1.2.2 = .nil
        ↔ resp.StatusCode ∈ (if expectedStatus = [] then [200] else expectedStatus))
      ∧ (resp.StatusCode ∈ (if expectedStatus = [] then [200] else expectedStatus) →
          sendRequest env c method URL headers expectedStatus w
              = ((some resp.Body, resp.StatusCode, .nil), w1)
            ∧ (sendRequest env c method URL headers expectedStatus w).2.touched resp.Body.id
              = false) := by
  have hinv := sendLoop_ok_untouched env c method URL headers _ w resp w1 h hw
  have heff : effectiveStatus expectedStatus
      = if expectedStatus = [] then [200] else expectedStatus := by
    cases expectedStatus <;> simp [effectiveStatus, StatusOK]
  have hlen : 0 < (effectiveStatus expectedStatus).length := by
    cases expectedStatus <;> simp [effectiveStatus]
  rw [← heff]
  by_cases hmem : resp.StatusCode ∈ effectiveStatus expectedStatus
  · have hany : (effectiveStatus expectedStatus).any (fun status => resp.StatusCode = status)
        = true := by
      simpa using hmem
    have hres : sendRequest env c method URL headers expectedStatus w
        = ((some resp.Body, resp.StatusCode, .nil), w1) := by
      simp [sendRequest, h, hany]
    refine ⟨by simp [hres, hmem], fun _ => ⟨hres, ?_⟩⟩
    rw [hres]
    exact hinv.2.2 _ (le_refl _)
  · have hany : (effectiveStatus expectedStatus).any (fun status => resp.StatusCode = status)
        = false := by
      simp only [List.any_eq_false, decide_eq_true_eq]
      intro x hx hxe
      exact hmem (hxe ▸ hx)
    have hne : (handleError env URL resp w1).1 ≠ .nil := by
      simp only [handleError, NewNotFoundf, NewUnauthorisedf, NewDuplicateValuef, makeErrorf]
      split_ifs <;> simp
    refine ⟨?_, fun hc => absurd hc hmem⟩
    simp [sendRequest, h, hany, hlen, hmem, hne]

/-! ## The retry loop, attempt by attempt -/

theorem sendLoop_retry_step (env : Env) (c : Client) (method URL : Str) (headers : Header)
    (left : Nat) (w : World) (x : Float64) (hreq : env.NewRequest method URL = none)
    (hx : retryAfterOf env (c.Do w.calls (requestOf env method URL headers)) = some x) :
    sendLoop env c method URL headers (left + 1) w
      = sendLoop env c method URL headers left
          ⟨w.calls + 1, w.trace ++ [.exec w.calls (requestOf env method URL headers),
            .closeBody w.calls, .sleep (sleepDuration env x)]⟩ := by
  rw [sendLoop]
  simp only [hreq]
  cases hd : c.Do w.calls (requestOf env method URL headers) with
  | fault e => rw [hd] at hx; simp [retryAfterOf] at hx
  | reply statusCode header data readErr =>
    rw [hd] at hx
    simp only [retryAfterOf] at hx
    dsimp only
    generalize Header.Get env header "Retry-After".toList = g at hx ⊢
    split at hx
    · rename_i hc
      rcases hp : env.ParseFloat g with ⟨v, e⟩
      rw [hp] at hx
      cases e with
      | some e => simp at hx
      | none =>
        simp only at hx
        split at hx
        · simp at hx
        · rename_i hz
          simp only [Option.some.injEq] at hx
          subst hx
          simp [hc.1, hc.2, hp, hz, StatusRequestEntityTooLarge, World.record]
    · simp at hx

theorem sendLoop_retried (env : Env) (c : Client) (method URL : Str) (headers : Header)
    (hreq : env.NewRequest method URL = none) :
    ∀ (xs : List Float64) (left k : Nat) (t : List Event),
      retried env c (requestOf env method URL headers) k xs →
      sendLoop env c method URL headers (xs.length + left) ⟨k, t⟩
        = sendLoop env c method URL headers left
            ⟨k + xs.length, t ++ retryEvents env (requestOf env method URL headers) k xs⟩ := by
  intro xs
  induction xs with
  | nil => intro left k t _; simp [retryEvents]
  | cons x xs ih =>
    intro left k t h
    obtain ⟨h1, h2⟩ := h
    have e : (x :: xs).length + left = (xs.length + left) + 1 := by simp; omega
    rw [e, sendLoop_retry_step env c method URL headers _ ⟨k, t⟩ x hreq h1, ih left (k + 1) _ h2]
    simp [retryEvents, Nat.add_assoc, Nat.add_comm 1]

theorem countExec_retryEvents (env : Env) (req : Request) (xs : List Float64) (k : Nat) :
    countExec (retryEvents env req k xs) = xs.length := by
  induction xs generalizing k with
  | nil => rfl
  | cons x xs ih =>
    have := ih (k + 1)
    simp only [countExec] at this
    simp [retryEvents, countExec, List.countP_cons, this]

theorem countSleep_retryEvents (env : Env) (req : Request) (xs : List Float64) (k : Nat) :
    countSleep (retryEvents env req k xs) = xs.length := by
  induction xs generalizing k with
  | nil => rfl
  | cons x xs ih =>
    have := ih (k + 1)
    simp only [countSleep] at this
    simp [retryEvents, countSleep, List.countP_cons, this]

theorem Sprintf_literal (c : Char) (rest : Str) (args : List Arg) (hc : c ≠ '%') :
    Sprintf (c :: rest) args = c :: Sprintf rest args := by
  conv_lhs => rw [Sprintf.eq_def]
  simp [hc]

theorem Newf_one_string (cause : GoError) (pre u : Str) (h : '%' ∉ pre) :
    Newf cause (pre ++ "%s".toList) [.str u] = .typed .UnspecifiedError (pre ++ u) cause := by
  simp only [Newf, makeErrorf, GoError.typed.injEq, true_and, and_true]
  induction pre with
  | nil => simp [Sprintf, renderArg, renderExtra]
  | cons c cs ih =>
    simp only [List.mem_cons, not_or] at h
    have hc : c ≠ '%' := fun e => h.1 e.symm
    rw [List.cons_append, Sprintf_literal _ _ _ hc, ih h.2, List.cons_append]

theorem sendLoop_stop_reply (env : Env) (c : Client) (method URL : Str) (headers : Header)
    (left : Nat) (w : World) (s : Int) (h : Header) (d : Str) (e : Option Str)
    (hreq : env.NewRequest method URL = none)
    (hdo : c.Do w.calls (requestOf env method URL headers) = .reply s h d e)
    (hstop : s ≠ 413 ∨ Header.Get env h "Retry-After".toList = []) :
    sendLoop env c method URL headers (left + 1) w
      = (.ok ⟨s, h, ⟨w.calls, d, e⟩⟩,
          ⟨w.calls + 1, w.trace ++ [.exec w.calls (requestOf env method URL headers)]⟩) := by
  rw [sendLoop]
  simp only [hreq, hdo]
  rw [if_pos (by simpa [StatusRequestEntityTooLarge] using hstop)]

theorem sendLoop_stop_fault (env : Env) (c : Client) (method URL : Str) (headers : Header)
    (left : Nat) (w : World) (t : Str)
    (hreq : env.NewRequest method URL = none)
    (hdo : c.Do w.calls (requestOf env method URL headers) = .fault t) :
    sendLoop env c method URL headers (left + 1) w
      = (.error (.typed .UnspecifiedError ("failed executing the request ".toList ++ URL)
            (.other t)),
          ⟨w.calls + 1, w.trace ++ [.exec w.calls (requestOf env method URL headers)]⟩) := by
  rw [sendLoop]
  simp only [hreq, hdo]
  rw [← Newf_one_string _ _ _ (by decide)]
  rfl

theorem sendLoop_stop_zero (env : Env) (c : Client) (method URL : Str) (headers : Header)
    (left : Nat) (w : World) (h : Header) (d : Str) (e : Option Str) (x : Float64)
    (hreq : env.NewRequest method URL = none)
    (hdo : c.Do w.calls (requestOf env method URL headers) = .reply 413 h d e)
    (hne : Header.Get env h "Retry-After".toList ≠ [])
    (hp : env.ParseFloat (Header.Get env h "Retry-After".toList) = (x, none))
    (hz : x.eqZero = true) :
    sendLoop env c method URL headers (left + 1) w
      = (.error (.typed .UnspecifiedError ("Resource limit exeeded at URL ".toList ++ URL) .nil),
          ⟨w.calls + 1, w.trace ++ [.exec w.calls (requestOf env method URL headers),
            .closeBody w.calls]⟩) := by
  rw [sendLoop]
  simp only [hreq, hdo]
  rw [if_neg (fun hh => hh.elim (fun a => a rfl) hne), hp]
  dsimp only
  rw [if_pos hz, ← Newf_one_string _ _ _ (by decide)]
  simp [World.record]

theorem sendLoop_exhausted (env : Env) (c : Client) (method URL : Str) (headers : Header)
    (w : World) :
    sendLoop env c method URL headers 0 w
      = (.error (.typed .UnspecifiedError
            ("Maximum number of attempts (".toList ++ itoa c.maxSendAttempts
              ++ ") reached sending request to ".toList ++ URL) .nil), w) := by
  rw [sendLoop]
  simp [Newf, makeErrorf, Sprintf, renderArg, renderExtra]

theorem sendRateLimitedRequest_after_retries (env : Env) (c : Client) (method URL : Str)
    (headers : Header) (w : World) (xs : List Float64) (left : Nat)
    (hreq : env.NewRequest method URL = none)
    (hxs : retried env c (requestOf env method URL headers) w.calls xs)
    (hn : c.maxSendAttempts.toNat = xs.length + left) :
    sendRateLimitedRequest env c method URL headers w
      = sendLoop env c method URL headers left
          ⟨w.calls + xs.length,
            w.trace ++ retryEvents env (requestOf env method URL headers) w.calls xs⟩ := by
  obtain ⟨k, t⟩ := w
  rw [sendRateLimitedRequest, hn, sendLoop_retried env c method URL headers hreq xs left k t hxs]

/-- C8: at every attempt of `sendRateLimitedRequest` (after any number of retried ones), a
response whose status is not 413, or that carries no `Retry-After` value, is returned as it
was received, without error and without further attempt, and a transport failure is
returned at once as an Unspecified error wrapping it. -/
theorem only_413_with_retry_after_is_retried (env : Env) (c : Client) (method URL : Str)
    (headers : Header) (w : World) (xs : List Float64)
    (hreq : env.NewRequest method URL = none)
    (hxs : retried env c (requestOf env method URL headers) w.calls xs)
    (hlt : (xs.length : Int) < c.maxSendAttempts) :
    (∀ s h d e,
        c.Do (w.calls + xs.length) (requestOf env method URL headers) = .reply s h d e →
        (s ≠ 413 ∨ Header.Get env h "Retry-After".toList = []) →
        sendRateLimitedRequest env c method URL headers w
          = (.ok ⟨s, h, ⟨w.calls + xs.length, d, e⟩⟩,
              ⟨w.calls + xs.length + 1,
                w.trace ++ retryEvents env (requestOf env method URL headers) w.calls xs
                  ++ [.exec (w.calls + xs.length) (requestOf env method URL headers)]⟩))
      ∧ (∀ t,
        c.Do (w.calls + xs.length) (requestOf env method URL headers) = .fault t →
        sendRateLimitedRequest env c method URL headers w
            = (.error (.typed .UnspecifiedError
                  ("failed executing the request ".toList ++ URL) (.other t)),
                ⟨w.calls + xs.length + 1,
                  w.trace ++ retryEvents env (requestOf env method URL headers) w.calls xs
                    ++ [.exec (w.calls + xs.length) (requestOf env method URL headers)]⟩)
          ∧ (GoError.typed .UnspecifiedError
                ("failed executing the request ".toList ++ URL) (.other t)).code
              = some .UnspecifiedError) := by
  have hn : c.maxSendAttempts.toNat
      = xs.length + ((c.maxSendAttempts.toNat - xs.length - 1) + 1) := by omega
  have hrun := sendRateLimitedRequest_after_retries env c method URL headers w xs _ hreq hxs hn
  refine ⟨fun s h d e hdo hstop => ?_, fun t hdo => ⟨?_, rfl⟩⟩
  · rw [hrun, sendLoop_stop_reply env c method URL headers _ _ s h d e hreq hdo hstop]
  · rw [hrun, sendLoop_stop_fault env c method URL headers _ _ t hreq hdo]

/-- C7: a first response 413 whose `Retry-After` parses to zero makes
`sendRateLimitedRequest` fail with an Unspecified error after that one attempt: the trace
holds the attempt and the close of its body, and no wait. -/
theorem zero_retry_after_fails_at_once (env : Env) (c : Client) (method URL : Str)
    (headers : Header) (w : World) (h : Header) (d : Str) (e : Option Str) (x : Float64)
    (hn : 0 < c.maxSendAttempts)
    (hreq : env.NewRequest method URL = none)
    (hdo : c.Do w.calls (requestOf env method URL headers) = .reply 413 h d e)
    (hne : Header.Get env h "Retry-After".toList ≠ [])
    (hp : env.ParseFloat (Header.Get env h "Retry-After".toList) = (x, none))
    (hz : x.eqZero = true) :
    sendRateLimitedRequest env c method URL headers w
        = (.error (.typed .UnspecifiedError
              ("Resource limit exeeded at URL ".toList ++ URL) .nil),
            ⟨w.calls + 1, w.trace ++ [.exec w.calls (requestOf env method URL headers),
              .closeBody w.calls]⟩)
      ∧ (GoError.typed .UnspecifiedError
            ("Resource limit exeeded at URL ".toList ++ URL) .nil).code
          = some .UnspecifiedError := by
  have hn2 : c.maxSendAttempts.toNat = (c.maxSendAttempts.toNat - 1) + 1 := by omega
  refine ⟨?_, rfl⟩
  rw [sendRateLimitedRequest, hn2,
    sendLoop_stop_zero env c method URL headers _ w h d e x hreq hdo hne hp hz]

theorem sleepDuration_whole_seconds (env : Env) (x : Float64) (secs : Int)
    (hx : x.trunc = some secs) (h1 : 1 ≤ secs)
    (h2 : secs * 1000000000 < 9223372036854775808) :
    sleepDuration env x = secs * Second ∧ 0 < secs * Second := by
  have hr : -9223372036854775808 ≤ secs ∧ secs < 9223372036854775808 := by omega
  simp only [sleepDuration, toDuration, hx, hr, and_self, if_true, wrap64, Second]
  omega

/-- C6, as amended: when each of the `n` attempts of the budget is answered by a 413
response whose `Retry-After` parses to a value other than zero, `sendRateLimitedRequest`
sends the request `n` times and fails with an Unspecified error whose message holds `n`
and the URL; and when the budget is at least 2, a 413 response whose `Retry-After` parses
to at least one second (its nanoseconds fitting a duration), followed by a response that
is not retried, gives one `time.Sleep` of positive duration, one further attempt, and that
second response as result. -/
theorem retry_budget_bounds_attempts (env : Env) (c : Client) (method URL : Str)
    (headers : Header) (w : World) (hreq : env.NewRequest method URL = none) :
    (∀ xs : List Float64,
        retried env c (requestOf env method URL headers) w.calls xs →
        (xs.length : Int) = c.maxSendAttempts →
        sendRateLimitedRequest env c method URL headers w
            = (.error (.typed .UnspecifiedError
                  ("Maximum number of attempts (".toList ++ itoa xs.length
                    ++ ") reached sending request to ".toList ++ URL) .nil),
                ⟨w.calls + xs.length,
                  w.trace ++ retryEvents env (requestOf env method URL headers) w.calls xs⟩)
          ∧ countExec (retryEvents env (requestOf env method URL headers) w.calls xs) = xs.length
          ∧ (GoError.typed .UnspecifiedError
                ("Maximum number of attempts (".toList ++ itoa xs.length
                  ++ ") reached sending request to ".toList ++ URL) .nil).code
              = some .UnspecifiedError)
      ∧ (∀ x secs s h d e,
        2 ≤ c.maxSendAttempts →
        retryAfterOf env (c.Do w.calls (requestOf env method URL headers)) = some x →
        x.trunc = some secs → 1 ≤ secs → secs * 1000000000 < 9223372036854775808 →
        c.Do (w.calls + 1) (requestOf env method URL headers) = .reply s h d e →
        (s ≠ 413 ∨ Header.Get env h "Retry-After".toList = []) →
        sendRateLimitedRequest env c method URL headers w
            = (.ok ⟨s, h, ⟨w.calls + 1, d, e⟩⟩,
                ⟨w.calls + 2,
                  w.trace ++ [.exec w.calls (requestOf env method URL headers),
                    .closeBody w.calls, .sleep (sleepDuration env x),
                    .exec (w.calls + 1) (requestOf env method URL headers)]⟩)
          ∧ 0 < sleepDuration env x
          ∧ countWait [.exec w.calls (requestOf env method URL headers),
              .closeBody w.calls, .sleep (sleepDuration env x),
              .exec (w.calls + 1) (requestOf env method URL headers)] = 1) := by
  refine ⟨fun xs hxs hlen => ⟨?_, countExec_retryEvents _ _ _ _, rfl⟩,
    fun x secs s h d e hn hx ht h1 h2 hdo hstop => ?_⟩
  · have hn : c.maxSendAttempts.toNat = xs.length + 0 := by omega
    rw [sendRateLimitedRequest_after_retries env c method URL headers w xs 0 hreq hxs hn,
      sendLoop_exhausted, ← hlen]
  · have hn2 : c.maxSendAttempts.toNat
        = [x].length + ((c.maxSendAttempts.toNat - 2) + 1) := by
      simp only [List.length_singleton]; omega
    have hpos : 0 < sleepDuration env x := by
      rw [(sleepDuration_whole_seconds env x secs ht h1 h2).1]
      exact (sleepDuration_whole_seconds env x secs ht h1 h2).2
    refine ⟨?_, hpos, ?_⟩
    · rw [sendRateLimitedRequest_after_retries env c method URL headers w [x] _ hreq
          ⟨hx, trivial⟩ hn2,
        sendLoop_stop_reply env c method URL headers _ _ s h d e hreq hdo hstop]
      simp [retryEvents]
    · simp [countWait, List.countP_cons, hpos]

/-! ## Rejected statuses at the entry points -/

theorem HttpError_Error_eq (e : HttpError) :
    e.Error = "request (".toList ++ e.url ++ ") returned unexpected status: ".toList
      ++ itoa e.StatusCode ++ "; error info: ".toList ++ e.responseMessage := by
  simp [HttpError.Error, Sprintf, renderArg, renderExtra]

theorem typed_status_Error (code : Code) (m : Str) (e : HttpError) :
    (GoError.typed code m (.status e)).Error = m ++ causedBy ++ e.Error := by
  simp only [GoError.Error, ne_eq, reduceCtorEq, not_false_eq_true, if_true]
  rw [Sprintf_caused_by]

/-- The error `handleError` builds is not nil, and its text ends with the text of the
`HttpError` for the status, the headers and the URL. -/
theorem handleError_Error (env : Env) (URL : Str) (resp : Response) (w : World) :
    (handleError env URL resp w).1 ≠ .nil ∧
      ∃ pre info, (handleError env URL resp w).1.Error
        = pre ++ HttpError.Error ⟨resp.StatusCode, resp.Header, URL, info⟩ := by
  simp only [handleError, NewNotFoundf, NewUnauthorisedf, NewDuplicateValuef, makeErrorf]
  split_ifs
  all_goals first
    | exact ⟨by simp, _, _, typed_status_Error _ _ _⟩
    | exact ⟨by simp, [], _, rfl⟩

theorem url_and_status_in_HttpError (status : Int) (hd : Header) (URL info pre : Str) :
    URL <:+: pre ++ HttpError.Error ⟨status, hd, URL, info⟩
      ∧ itoa status <:+: pre ++ HttpError.Error ⟨status, hd, URL, info⟩ := by
  rw [HttpError_Error_eq]
  constructor
  · exact ⟨pre ++ "request (".toList,
      ") returned unexpected status: ".toList ++ itoa status ++ "; error info: ".toList ++ info,
      by simp⟩
  · exact ⟨pre ++ "request (".toList ++ URL ++ ") returned unexpected status: ".toList,
      "; error info: ".toList ++ info, by simp⟩

theorem sendRequest_rejects (env : Env) (c : Client) (method URL : Str) (headers : Header)
    (expectedStatus : List Int) (w w1 : World) (resp : Response)
    (h : sendRateLimitedRequest env c method URL headers w = (.ok resp, w1))
    (hns : resp.StatusCode ∉ (if expectedStatus = [] then [200] else expectedStatus)) :
    sendRequest env c method URL headers expectedStatus w
      = ((none, 0, (handleError env URL resp w1).1),
          (handleError env URL resp w1).2.record (.closeBody resp.Body.id)) := by
  have heff : effectiveStatus expectedStatus
      = if expectedStatus = [] then [200] else expectedStatus := by
    cases expectedStatus <;> simp [effectiveStatus, StatusOK]
  have hlen : 0 < (effectiveStatus expectedStatus).length := by
    cases expectedStatus <;> simp [effectiveStatus]
  rw [← heff] at hns
  have hany : (effectiveStatus expectedStatus).any (fun status => resp.StatusCode = status)
      = false := by
    simp only [List.any_eq_false, decide_eq_true_eq]
    intro x hx hxe
    exact hns (hxe ▸ hx)
  simp [sendRequest, h, hany, hlen]

theorem withParams_has_url (url : Str) (reqData : RequestData) :
    url <:+: withParams url reqData := by
  unfold withParams
  cases reqData.Params with
  | none => exact ⟨[], [], by simp⟩
  | some q => exact ⟨[], "?".toList ++ q, by simp⟩

theorem isInfix_trans_str {a b d : Str} (h1 : a <:+: b) (h2 : b <:+: d) : a <:+: d := by
  obtain ⟨s1, t1, rfl⟩ := h1
  obtain ⟨s2, t2, rfl⟩ := h2
  exact ⟨s2 ++ s1, t1 ++ t2, by simp⟩

/-- C3: when the response handed to `sendRequest` has a status outside the expected ones,
`JsonRequest` and `BinaryRequest` return an error that is not nil and whose text holds
the URL of the request and the status in decimal. -/
theorem json_and_binary_errors_name_url_and_status (env : Env) (c : Client)
    (method url token : Str) (reqData : RequestData) (w : World) :
    (∀ resp w1 body,
        requestBody reqData.ReqValue = .ok body →
        sendRateLimitedRequest env c method (withParams url reqData)
            (createHeaders env c reqData.ReqHeaders contentTypeJSON) w = (.ok resp, w1) →
        resp.StatusCode ∉ (if reqData.ExpectedStatus = [] then [200]
          else reqData.ExpectedStatus) →
        ∃ err, (JsonRequest env c method url reqData w).1 = .returned err ∧ err ≠ .nil
          ∧ url <:+: err.Error ∧ withParams url reqData <:+: err.Error
          ∧ itoa resp.StatusCode <:+: err.Error)
      ∧ (∀ resp w1,
        sendRateLimitedRequest env c method (withParams url reqData)
            (createHeaders env c reqData.ReqHeaders contentTypeOctetStream) w = (.ok resp, w1) →
        resp.StatusCode ∉ (if reqData.ExpectedStatus = [] then [200]
          else reqData.ExpectedStatus) →
        ∃ err, (BinaryRequest env c method url token reqData w).1 = .returned err ∧ err ≠ .nil
          ∧ url <:+: err.Error ∧ withParams url reqData <:+: err.Error
          ∧ itoa resp.StatusCode <:+: err.Error) := by
  constructor
  · intro resp w1 body hb h hns
    obtain ⟨hne, pre, info, herr⟩ := handleError_Error env (withParams url reqData) resp w1
    have hin := url_and_status_in_HttpError resp.StatusCode resp.Header
      (withParams url reqData) info pre
    rw [← herr] at hin
    refine ⟨(handleError env (withParams url reqData) resp w1).1, ?_, hne,
      isInfix_trans_str (withParams_has_url url reqData) hin.1, hin.1, hin.2⟩
    simp only [JsonRequest, hb, sendRequest_rejects env c method _ _ _ w w1 resp h hns]
    rw [if_pos hne]
  · intro resp w1 h hns
    obtain ⟨hne, pre, info, herr⟩ := handleError_Error env (withParams url reqData) resp w1
    have hin := url_and_status_in_HttpError resp.StatusCode resp.Header
      (withParams url reqData) info pre
    rw [← herr] at hin
    refine ⟨(handleError env (withParams url reqData) resp w1).1, ?_, hne,
      isInfix_trans_str (withParams_has_url url reqData) hin.1, hin.1, hin.2⟩
    simp only [BinaryRequest, sendRequest_rejects env c method _ _ _ w w1 resp h hns]
    rw [if_pos hne]

/-- On a rejected status `PlainRequest` does not return: the stream it goes on to read
is nil.  The envelope holds status 0 at that point. -/
theorem PlainRequest_rejected (env : Env) (c : Client) (method url : Str)
    (reqData : RequestData) (w w1 : World) (resp : Response) (body : Str)
    (hb : requestBody reqData.ReqValue = .ok body)
    (h : sendRateLimitedRequest env c method (withParams url reqData)
      (createHeaders env c reqData.ReqHeaders "text/plain".toList) w = (.ok resp, w1))
    (hns : resp.StatusCode ∉ (if reqData.ExpectedStatus = [] then [200]
      else reqData.ExpectedStatus)) :
    (PlainRequest env c method url reqData w).1 = .panicked
      ∧ (PlainRequest env c method url reqData w).2.1.StatusCode = 0 := by
  simp only [PlainRequest, hb, sendRequest_rejects env c method _ _ _ w w1 resp h hns,
    and_self]

/-- On a rejected status `JsonRequest` and `BinaryRequest` leave 0 in the envelope. -/
theorem JsonRequest_rejected_StatusCode (env : Env) (c : Client) (method url : Str)
    (reqData : RequestData) (w w1 : World) (resp : Response) (body : Str)
    (hb : requestBody reqData.ReqValue = .ok body)
    (h : sendRateLimitedRequest env c method (withParams url reqData)
      (createHeaders env c reqData.ReqHeaders contentTypeJSON) w = (.ok resp, w1))
    (hns : resp.StatusCode ∉ (if reqData.ExpectedStatus = [] then [200]
      else reqData.ExpectedStatus)) :
    (JsonRequest env c method url reqData w).2.1.StatusCode = 0 := by
  have hne := (handleError_Error env (withParams url reqData) resp w1).1
  simp only [JsonRequest, hb, sendRequest_rejects env c method _ _ _ w w1 resp h hns]
  rw [if_pos hne]

theorem BinaryRequest_rejected_StatusCode (env : Env) (c : Client) (method url token : Str)
    (reqData : RequestData) (w w1 : World) (resp : Response)
    (h : sendRateLimitedRequest env c method (withParams url reqData)
      (createHeaders env c reqData.ReqHeaders contentTypeOctetStream) w = (.ok resp, w1))
    (hns : resp.StatusCode ∉ (if reqData.ExpectedStatus = [] then [200]
      else reqData.ExpectedStatus)) :
    (BinaryRequest env c method url token reqData w).2.1.StatusCode = 0 := by
  have hne := (handleError_Error env (withParams url reqData) resp w1).1
  simp only [BinaryRequest, sendRequest_rejects env c method _ _ _ w w1 resp h hns]
  rw [if_pos hne]

/-! ## The properties at sample inputs -/

theorem sendRequest_succeeds_iff_expected_witness :
    World.init.fresh
      ∧ sendRequest sampleEnv (scriptedClient [okReply] 3) "GET".toList sampleURL [] []
          World.init
        = ((some ⟨0, "done".toList, none⟩, 200, .nil),
            ⟨1, [.exec 0 (requestOf sampleEnv "GET".toList sampleURL [])]⟩) :=
  ⟨fresh_init,
    ((sendRequest_succeeds_iff_expected sampleEnv (scriptedClient [okReply] 3) "GET".toList
      sampleURL [] [] World.init _ ⟨200, [], ⟨0, "done".toList, none⟩⟩ fresh_init rfl).2
        (by decide)).1⟩

theorem json_and_binary_errors_name_url_and_status_witness :
    ∃ err,
      (JsonRequest sampleEnv (scriptedClient [notFound] 3) "GET".toList sampleURL
        (sampleData [200, 201]) World.init).1 = .returned err
      ∧ err ≠ .nil ∧ sampleURL <:+: err.Error
      ∧ withParams sampleURL (sampleData [200, 201]) <:+: err.Error
      ∧ itoa 404 <:+: err.Error :=
  (json_and_binary_errors_name_url_and_status sampleEnv (scriptedClient [notFound] 3)
    "GET".toList sampleURL [] (sampleData [200, 201]) World.init).1
      ⟨404, [], ⟨0, "no such item".toList, none⟩⟩ _ [] rfl rfl (by decide)

/-- C3 as stated fails for a 413 response that carries `Retry-After: 0` while 200 is
expected: the retry loop fails on it before any status is validated, and the error
`JsonRequest` and `BinaryRequest` return names the URL but not the status 413. -/
theorem retry_after_zero_error_lacks_status :
    (scriptedClient [tooLarge0] 3).Do 0 (requestOf sampleEnv "GET".toList sampleURL [])
        = .reply 413 [("Retry-After".toList, ["0".toList])] [] none
      ∧ (JsonRequest sampleEnv (scriptedClient [tooLarge0] 3) "GET".toList sampleURL
          (sampleData []) World.init).1
        = .returned (.typed .UnspecifiedError
            "Resource limit exeeded at URL http://host/items".toList .nil)
      ∧ (BinaryRequest sampleEnv (scriptedClient [tooLarge0] 3) "GET".toList sampleURL []
          (sampleData []) World.init).1
        = .returned (.typed .UnspecifiedError
            "Resource limit exeeded at URL http://host/items".toList .nil)
      ∧ (GoError.typed .UnspecifiedError
            "Resource limit exeeded at URL http://host/items".toList .nil).Error
          = "Resource limit exeeded at URL http://host/items".toList
      ∧ ¬ itoa 413 <:+: "Resource limit exeeded at URL http://host/items".toList := by
  refine ⟨rfl, rfl, rfl, rfl, ?_⟩
  rintro ⟨a, b, h⟩
  have h4 : '4' ∈ "Resource limit exeeded at URL http://host/items".toList := by
    rw [← h]
    simp [itoa, Nat.toDigits, Nat.toDigitsCore, Nat.digitChar]
  revert h4
  decide

/-- C4 at a failing input: the only response is a 404, no status is listed (so 200 is
expected).  `sendRequest` returns a nil stream and a NotFound error, and `PlainRequest`
does not return that error: it panics reading the nil stream. -/
theorem PlainRequest_drops_the_error_of_sendRequest :
    (sendRequest sampleEnv (scriptedClient [notFound] 3) "GET".toList sampleURL
        (createHeaders sampleEnv (scriptedClient [notFound] 3) [] "text/plain".toList) []
        World.init).1.1 = none
      ∧ (sendRequest sampleEnv (scriptedClient [notFound] 3) "GET".toList sampleURL
        (createHeaders sampleEnv (scriptedClient [notFound] 3) [] "text/plain".toList) []
        World.init).1.2.2.code = some .NotFoundError
      ∧ (PlainRequest sampleEnv (scriptedClient [notFound] 3) "GET".toList sampleURL
        (sampleData []) World.init).1 = .panicked := by
  refine ⟨rfl, rfl, rfl⟩

/-- C5 at a failing input: the only response is a 404 and 200 is expected.  After the call
the envelope holds status 0, not 404, for each of the three entry points. -/
theorem rejected_status_is_recorded_as_zero :
    (scriptedClient [notFound] 3).Do 0 (requestOf sampleEnv "GET".toList sampleURL [])
        = .reply 404 [] "no such item".toList none
      ∧ (JsonRequest sampleEnv (scriptedClient [notFound] 3) "GET".toList sampleURL
        (sampleData []) World.init).2.1.StatusCode = 0
      ∧ (BinaryRequest sampleEnv (scriptedClient [notFound] 3) "GET".toList sampleURL []
        (sampleData []) World.init).2.1.StatusCode = 0
      ∧ (PlainRequest sampleEnv (scriptedClient [notFound] 3) "GET".toList sampleURL
        (sampleData []) World.init).2.1.StatusCode = 0 := by
  refine ⟨rfl, rfl, rfl, rfl⟩

/-- C6 as stated fails for a budget of 1: a 413 response asking to wait two seconds, which
a 200 response would follow, gives one attempt, one wait of two seconds and the failure
for exhausted attempts; no further attempt is made. -/
theorem budget_one_makes_no_further_attempt :
    retryAfterOf sampleEnv ((scriptedClient [tooLarge2, okReply] 1).Do 0
        (requestOf sampleEnv "GET".toList sampleURL [])) = some (.finite 1 1)
      ∧ (scriptedClient [tooLarge2, okReply] 1).Do 1
        (requestOf sampleEnv "GET".toList sampleURL []) = .reply 200 [] "done".toList none
      ∧ sendRateLimitedRequest sampleEnv (scriptedClient [tooLarge2, okReply] 1) "GET".toList
          sampleURL [] World.init
        = (.error (.typed .UnspecifiedError
              "Maximum number of attempts (1) reached sending request to http://host/items".toList
              .nil),
            ⟨1, [.exec 0 (requestOf sampleEnv "GET".toList sampleURL []), .closeBody 0,
              .sleep 2000000000]⟩) := by
  refine ⟨rfl, rfl, rfl⟩

/-- The duration of the sleep is computed from the seconds with their fraction dropped: a
413 response asking to wait half a second is retried after `time.Sleep(0)`, which returns
at once. -/
theorem half_second_retry_after_sleeps_zero :
    sendRateLimitedRequest sampleEnv (scriptedClient [tooLargeHalf, okReply] 3) "GET".toList
        sampleURL [] World.init
      = (.ok ⟨200, [], ⟨1, "done".toList, none⟩⟩,
          ⟨2, [.exec 0 (requestOf sampleEnv "GET".toList sampleURL []), .closeBody 0,
            .sleep 0, .exec 1 (requestOf sampleEnv "GET".toList sampleURL [])]⟩) := by
  rfl

theorem retry_budget_bounds_attempts_witness :
    sendRateLimitedRequest sampleEnv (scriptedClient [tooLarge2, tooLarge2, tooLarge2] 3)
          "GET".toList sampleURL [] World.init
        = (.error (.typed .UnspecifiedError
              ("Maximum number of attempts (".toList ++ itoa (3 : Nat)
                ++ ") reached sending request to ".toList ++ sampleURL) .nil),
            ⟨3, retryEvents sampleEnv (requestOf sampleEnv "GET".toList sampleURL []) 0
              [.finite 1 1, .finite 1 1, .finite 1 1]⟩)
      ∧ sendRateLimitedRequest sampleEnv (scriptedClient [tooLarge2, okReply] 3)
          "GET".toList sampleURL [] World.init
        = (.ok ⟨200, [], ⟨1, "done".toList, none⟩⟩,
            ⟨2, [.exec 0 (requestOf sampleEnv "GET".toList sampleURL []), .closeBody 0,
              .sleep 2000000000, .exec 1 (requestOf sampleEnv "GET".toList sampleURL [])]⟩) :=
  ⟨((retry_budget_bounds_attempts sampleEnv (scriptedClient [tooLarge2, tooLarge2, tooLarge2] 3)
      "GET".toList sampleURL [] World.init rfl).1 [.finite 1 1, .finite 1 1, .finite 1 1]
        ⟨rfl, rfl, rfl, trivial⟩ rfl).1,
    ((retry_budget_bounds_attempts sampleEnv (scriptedClient [tooLarge2, okReply] 3)
      "GET".toList sampleURL [] World.init rfl).2 (.finite 1 1) 2 200 [] "done".toList none
        (by decide) rfl rfl (by decide) (by decide) rfl (Or.inl (by decide))).1⟩

theorem zero_retry_after_fails_at_once_witness :
    sendRateLimitedRequest sampleEnv (scriptedClient [tooLarge0, okReply] 3) "GET".toList
        sampleURL [] World.init
      = (.error (.typed .UnspecifiedError
            ("Resource limit exeeded at URL ".toList ++ sampleURL) .nil),
          ⟨1, [.exec 0 (requestOf sampleEnv "GET".toList sampleURL []), .closeBody 0]⟩) :=
  (zero_retry_after_fails_at_once sampleEnv (scriptedClient [tooLarge0, okReply] 3)
    "GET".toList sampleURL [] World.init [("Retry-After".toList, ["0".toList])] [] none
    (.finite 0 0) (by decide) rfl rfl (by decide) rfl rfl).1

theorem only_413_with_retry_after_is_retried_witness :
    retried sampleEnv (scriptedClient [tooLarge2, notFound] 3)
        (requestOf sampleEnv "GET".toList sampleURL []) 0 [.finite 1 1]
      ∧ sendRateLimitedRequest sampleEnv (scriptedClient [tooLarge2, notFound] 3) "GET".toList
          sampleURL [] World.init
        = (.ok ⟨404, [], ⟨1, "no such item".toList, none⟩⟩,
            ⟨2, [.exec 0 (requestOf sampleEnv "GET".toList sampleURL []), .closeBody 0,
              .sleep 2000000000, .exec 1 (requestOf sampleEnv "GET".toList sampleURL [])]⟩) :=
  ⟨⟨rfl, trivial⟩,
    (only_413_with_retry_after_is_retried sampleEnv (scriptedClient [tooLarge2, notFound] 3)
      "GET".toList sampleURL [] World.init [.finite 1 1] rfl ⟨rfl, trivial⟩ (by decide)).1
        404 [] "no such item".toList none rfl (Or.inl (by decide))⟩

end HttpClient
